import Mathlib

/-
Verification of the sequence-window / notification core of the torque_sockets
`connection` class (src/platform_library/net/connection.h).

All machine integers in the source are `uint32`; they are embedded as `Nat`
kept below `2^32`, with wraparound made explicit (`% W32`, `sub32`).  The
`bit_stream` is embedded by representing an incoming packet as the record of
the field values its reads return (in read order, with the width bound each
read guarantees), and an outgoing packet as the list of fields written.
-/

namespace TorqueSockets

/-- Modulus of 32-bit unsigned arithmetic. -/
def W32 : Nat := 4294967296

/-- uint32 subtraction `a - b` with two's-complement wraparound. -/
def sub32 (a b : Nat) : Nat := (a + W32 - b % W32) % W32

/- Constants from `enum connection_constants` (connection.h).
   `max_packet_window_size_shift = 5`, so the window is 32 packets,
   one 32-bit ack word (`max_ack_mask_size = 1`), 4 ack bytes. -/

/-- max_packet_window_size = 1 << 5. -/
def max_packet_window_size : Nat := 32

/-- packet_window_mask = max_packet_window_size - 1. -/
def packet_window_mask : Nat := 31

/-- max_ack_byte_count = max_ack_mask_size << 2. -/
def max_ack_byte_count : Nat := 4

/-- sequence_number_window_size = 1 << sequence_number_bit_size (11). -/
def sequence_number_window_size : Nat := 2048

/-- sequence_number_mask = -sequence_number_window_size as a uint32. -/
def sequence_number_mask : Nat := W32 - 2048

/-- ack_sequence_number_window_size = 1 << ack_sequence_number_bit_size (10). -/
def ack_sequence_number_window_size : Nat := 1024

/-- ack_sequence_number_mask = -ack_sequence_number_window_size as a uint32. -/
def ack_sequence_number_mask : Nat := W32 - 1024

/-- default_ping_timeout from `enum default_ping_constants`. -/
def default_ping_timeout : Nat := 5000

/-- default_ping_retry_count from `enum default_ping_constants`. -/
def default_ping_retry_count : Nat := 10

/-- The `connection` state relevant to the sequence window, notification,
keep-alive and send pacing logic.  Times are milliseconds.
`last_seq_recvd_at_send` is the 32-entry array, embedded as a function from
the window index (`& packet_window_mask`).  Floating-point round-trip-time
tracking and the byte-buffer plumbing are not modelled. -/
structure Conn where
  last_seq_recvd : Nat
  highest_acked_seq : Nat
  last_send_seq : Nat
  last_recv_ack_ack : Nat
  ack_mask : Nat
  last_seq_recvd_at_send : Nat → Nat
  ping_send_count : Nat
  last_ping_send_time : Nat
  ping_timeout : Nat
  ping_retry_count : Nat
  has_cipher : Bool
  last_packet_recv_time : Nat
  last_update_time : Nat
  send_delay_credit : Nat
  current_packet_send_period : Nat
  local_rate_changed : Bool
  max_recv_bw : Nat
  max_send_bw : Nat
  min_recv_period : Nat
  min_send_period : Nat

/-- An incoming packet, embedded as the values the bit_stream reads in
`read_packet_header` return, in read order.  `ptype` is the 2-bit packet
type, `seq_low`/`seq_hi` the 5+6 bit split sequence, `hack` the 10-bit
highest-ack field, `pad` the (0-bit, hence always 0) pad read, `mac_ok` the
outcome of `bit_stream_decrypt_and_check_hash`, `abc` the ranged
ack-byte-count read (3 bits, so 0..7), `ack_words` the contents of the
`pk_ack_mask` buffer after the ack-word reads (index 0 is the wire word;
higher indices model whatever the out-of-bounds stack memory holds). -/
structure Packet where
  ptype : Nat
  seq_low : Nat
  flag : Bool
  seq_hi : Nat
  hack : Nat
  pad : Nat
  mac_ok : Bool
  abc : Nat
  ack_words : Nat → Nat

/-- Width bounds guaranteed by the corresponding `read_integer` calls. -/
def Packet.wf (p : Packet) : Prop :=
  p.ptype < 4 ∧ p.seq_low < 32 ∧ p.seq_hi < 64 ∧ p.hack < 1024 ∧ p.pad < 1 ∧ p.abc < 8

instance (p : Packet) : Decidable p.wf := by
  unfold Packet.wf; infer_instance

/-- The raw 11-bit sequence number as assembled from its 5-bit and 6-bit
reads: `pk_sequence_number | (read_integer(6) << 5)`. -/
def raw_seq (p : Packet) : Nat := p.seq_low ||| (p.seq_hi <<< 5)

/-- Reconstruction of the full sequence from the truncated 11-bit field:
`pk_sequence_number |= (_last_seq_recvd & sequence_number_mask)`, then
`+= sequence_number_window_size` (uint32 add) on wrap around. -/
def recon_seq (last raw : Nat) : Nat :=
  let v := raw ||| (last &&& sequence_number_mask)
  if v < last then (v + sequence_number_window_size) % W32 else v

/-- Reconstruction of the full highest-ack from the truncated 10-bit field:
`pk_highest_ack |= (_highest_acked_seq & ack_sequence_number_mask)`, then
`+= ack_sequence_number_window_size` (uint32 add) on wrap around. -/
def recon_ack (cur raw : Nat) : Nat :=
  let v := raw ||| (cur &&& ack_sequence_number_mask)
  if v < cur then (v + ack_sequence_number_window_size) % W32 else v

/-- The `while(ack_mask_shift > 32)` loop of `read_packet_header`, for the
one-word mask (`max_ack_mask_size = 1`): each iteration zeroes word 0 and
deducts 32 from the shift.  `fuel` bounds the iteration count (each
iteration needs shift > 32, so `shift` itself is a sufficient bound). -/
def word_upshift_aux : Nat → Nat → Nat → Nat × Nat
  | 0, mask, shift => (mask, shift)
  | fuel + 1, mask, shift =>
      if shift > 32 then word_upshift_aux fuel 0 (shift - 32) else (mask, shift)

/-- Entry point of the whole-word up-shift loop. -/
def word_upshift (mask shift : Nat) : Nat × Nat := word_upshift_aux shift mask shift

/-- One iteration of the notify loop: `notify_index` and the
`packet_transmit_success` test
`(pk_ack_mask[(pk_highest_ack - notify_index) >> 5] & (1 << ((pk_highest_ack - notify_index) & 0x1F))) != 0`. -/
def notify_step (has : Nat) (ackw : Nat → Nat) (A i : Nat) : Nat × Bool :=
  let idx := (has + i + 1) % W32
  let d := sub32 A idx
  (idx, decide ((ackw (d >>> 5)) &&& (1 <<< (d &&& 31)) ≠ 0))

/-- The notify loop of `read_packet_header`: iterates
`notify_count = pk_highest_ack - _highest_acked_seq` times, emitting
`handle_notify(notify_index, success)` and, on success, setting
`_last_recv_ack_ack = _last_seq_recvd_at_send[notify_index & packet_window_mask]`.
Returns the emitted (sequence, delivered) list and the final
`_last_recv_ack_ack`. -/
def notify_loop (has : Nat) (lssras ackw : Nat → Nat) (A lraa0 : Nat) :
    List (Nat × Bool) × Nat :=
  (List.range (sub32 A has)).foldl
    (fun acc i =>
      let s := notify_step has ackw A i
      (acc.1 ++ [s], if s.2 then lssras (s.1 &&& packet_window_mask) else acc.2))
    ([], lraa0)

/-- The conjunction of all the acceptance checks of `read_packet_header`
(the negations of its early `return false` paths), in source order:
non-zero pad bits, out-of-window sequence, out-of-window highest-ack,
MAC failure, oversize ack byte count / invalid packet type. -/
def header_ok (c : Conn) (p : Packet) : Bool :=
  (p.pad == 0) &&
  decide (sub32 (recon_seq c.last_seq_recvd (raw_seq p)) c.last_seq_recvd
      ≤ max_packet_window_size - 1) &&
  decide (recon_ack c.highest_acked_seq p.hack ≤ c.last_send_seq) &&
  (!c.has_cipher || p.mac_ok) &&
  decide (p.abc ≤ max_ack_byte_count) &&
  decide (p.ptype < 3)

/-- `connection::read_packet_header`, returning (return value, new state,
emitted notifications).  Each early `return false` leaves the connection
untouched; the `assert(pk_data_packet_flag)` is a release-build no-op, so
`p.flag` is read but never branched on.  The ack-packet send triggered at
the end for pings / half-full windows writes only to the socket and does
not change any modelled field.

The body run once all acceptance checks have passed (ack-mask shift,
notify loop, ack-ack clamp, field updates, return value) is factored into
`read_packet_header_accept`; the checks themselves are the ifs of
`read_packet_header` below, in source order. -/
def read_packet_header_accept (c : Conn) (p : Packet) : Bool × Conn × List (Nat × Bool) :=
  let S := recon_seq c.last_seq_recvd (raw_seq p)
  let A := recon_ack c.highest_acked_seq p.hack
  let ms := word_upshift c.ack_mask (sub32 S c.last_seq_recvd)
  let up : Nat := if p.ptype = 0 then 1 else 0
  let ack_mask1 := ((ms.1 <<< ms.2) % W32) ||| up
  let nl := notify_loop c.highest_acked_seq c.last_seq_recvd_at_send
    p.ack_words A c.last_recv_ack_ack
  let lraa1 := nl.2
  let lraa2 := if sub32 S lraa1 > max_packet_window_size
    then sub32 S max_packet_window_size else lraa1
  let ret := decide (c.last_seq_recvd ≠ S) && decide (p.ptype = 0)
  (ret,
    { c with
      ack_mask := ack_mask1
      highest_acked_seq := A
      last_ping_send_time := 0
      ping_send_count := 0
      last_seq_recvd := S
      last_recv_ack_ack := lraa2 },
    nl.1)

def read_packet_header (c : Conn) (p : Packet) : Bool × Conn × List (Nat × Bool) :=
  if p.pad ≠ 0 then (false, c, [])
  else if sub32 (recon_seq c.last_seq_recvd (raw_seq p)) c.last_seq_recvd
      > max_packet_window_size - 1 then (false, c, [])
  else if recon_ack c.highest_acked_seq p.hack > c.last_send_seq then (false, c, [])
  else if c.has_cipher && !p.mac_ok then (false, c, [])
  else if p.abc > max_ack_byte_count ∨ 3 ≤ p.ptype then (false, c, [])
  else read_packet_header_accept c p

/-- `connection::read_raw_packet`: `drop` is the simulated-packet-loss draw;
on a true return from `read_packet_header` the receive time is stamped and
the payload is decoded (`read_packet`).  The returned Bool records whether
`read_packet` was invoked. -/
def read_raw_packet (c : Conn) (drop : Bool) (p : Packet) (now : Nat) :
    Conn × List (Nat × Bool) × Bool :=
  if drop then (c, [], false)
  else
    let r := read_packet_header c p
    if r.1 then ({ r.2.1 with last_packet_recv_time := now }, r.2.2, true)
    else (r.2.1, r.2.2, false)

/-- A field written to the outgoing bit_stream: `bits v w` is a
`write_integer`-style write of value `v` in `w` bits (low bits kept, as
`write_integer` does), `payload` marks the application payload region
written by the virtual `write_packet`, `signature` the trailing
`message_signature_bytes` MAC appended by `bit_stream_hash_and_encrypt`. -/
inductive Field where
  | bits (v w : Nat)
  | payload
  | signature
deriving DecidableEq, Repr

/-- Ceiling of log2, by fuel-bounded recursion (`clog2_aux n n` computes
ceil(log2 n); each recursion at least halves `n`, so `n` bounds the depth). -/
def clog2_aux : Nat → Nat → Nat
  | 0, _ => 0
  | fuel + 1, n => if n ≤ 1 then 0 else clog2_aux fuel ((n + 1) / 2) + 1

/-- Modelled from the spec: the bit_stream codec is not under src/; per the
spec, `write_ranged_uint32(v, lo, hi)` encodes `v - lo` in exactly
`ceil(log2(hi - lo + 1))` bits.  This gives that bit width. -/
def ranged_bits (lo hi : Nat) : Nat := clog2_aux (hi - lo + 1) (hi - lo + 1)

/-- Modelled from the spec: the field emitted by `write_ranged_uint32(v, lo, hi)`. -/
def ranged_field (v lo hi : Nat) : Field :=
  Field.bits ((v - lo) % 2 ^ ranged_bits lo hi) (ranged_bits lo hi)

/-- The ack-mask words written by `write_packet_header` (and read back by
`read_packet_header`): `word_count = (ack_byte_count + 3) >> 2` words, each
32 bits except the final word, which is `(ack_byte_count - i*4) * 8` bits.
With `max_ack_mask_size = 1` only word 0 exists. -/
def ack_word_fields (mask abc : Nat) : List Field :=
  let wc := (abc + 3) >>> 2
  (List.range wc).map (fun i =>
    let w := if i = wc - 1 then (abc - i * 4) * 8 else 32
    Field.bits (mask % 2 ^ w) w)

/-- `connection::write_packet_header`: computes
`ack_byte_count = (_last_seq_recvd - _last_recv_ack_ack + 7) >> 3` (uint32
arithmetic, no clamp in the source - only an assert), increments
`_last_send_seq` for data packets, writes the header fields, the ranged
ack byte count, the ack words, and the 8-bit send-delay field
`(min(now - _last_packet_recv_time, 2047)) >> 3`, then records
`_last_seq_recvd_at_send[_last_send_seq & packet_window_mask]` for data
packets.  Returns the new state and the written fields. -/
def write_packet_header (c : Conn) (ptype now : Nat) : Conn × List Field :=
  let abc := ((sub32 c.last_seq_recvd c.last_recv_ack_ack + 7) % W32) >>> 3
  let seq' := if ptype = 0 then (c.last_send_seq + 1) % W32 else c.last_send_seq
  let sdel0 := now - c.last_packet_recv_time
  let sdel := if sdel0 > 2047 then 2047 else sdel0
  let fields : List Field :=
    [Field.bits (ptype % 4) 2,
     Field.bits (seq' % 32) 5,
     Field.bits 1 1,
     Field.bits ((seq' >>> 5) % 64) 6,
     Field.bits (c.last_seq_recvd % 1024) 10,
     Field.bits 0 0,
     ranged_field abc 0 max_ack_byte_count]
    ++ ack_word_fields c.ack_mask abc
    ++ [Field.bits ((sdel >>> 3) % 256) 8]
  ({ c with
      last_send_seq := seq'
      last_seq_recvd_at_send :=
        if ptype = 0 then
          fun k => if k = (seq' &&& packet_window_mask) then c.last_seq_recvd
                   else c.last_seq_recvd_at_send k
        else c.last_seq_recvd_at_send },
   fields)

/-- `connection::write_packet_rate_info`: writes the rate-changed bool and,
when set, the four ranged rate fields, clearing `_local_rate_changed`. -/
def write_packet_rate_info (c : Conn) : Conn × List Field :=
  let rc := c.local_rate_changed
  ({ c with local_rate_changed := false },
   if rc then
     [Field.bits 1 1,
      ranged_field c.max_recv_bw 0 65535,
      ranged_field c.max_send_bw 0 65535,
      ranged_field c.min_recv_period 1 2047,
      ranged_field c.min_send_period 1 2047]
   else [Field.bits 0 1])

/-- `connection::write_raw_packet`: header, then for data packets the rate
info and the application payload, then (when a cipher is installed) the
trailing MAC appended by `bit_stream_hash_and_encrypt`. -/
def write_raw_packet (c : Conn) (ptype now : Nat) : Conn × List Field :=
  let h := write_packet_header c ptype now
  if ptype = 0 then
    let r := write_packet_rate_info h.1
    (r.1, h.2 ++ r.2 ++ [Field.payload]
      ++ (if r.1.has_cipher then [Field.signature] else []))
  else
    (h.1, h.2 ++ (if h.1.has_cipher then [Field.signature] else []))

/-- `connection::window_full`:
`_last_send_seq - _highest_acked_seq >= max_packet_window_size - 2`. -/
def window_full (c : Conn) : Bool :=
  decide (sub32 c.last_send_seq c.highest_acked_seq ≥ max_packet_window_size - 2)

/-- `connection::check_packet_send(force, current_time)`: the rate gate and
send-delay-credit update (skipped when `force`), then the virtual
`prepare_write_packet` (a no-op in the core), then the window/data check,
then the data-packet write.  `has_data` stands for the virtual
`is_data_to_transmit`.  Returns the new state and whether a packet was sent. -/
def check_packet_send (c : Conn) (force : Bool) (now : Nat) (has_data : Bool) :
    Conn × Bool :=
  let delay := c.current_packet_send_period
  if ¬force ∧ now - c.last_update_time + c.send_delay_credit < delay then (c, false)
  else
    let c1 :=
      if force then c
      else
        let cr := now - (c.last_update_time + delay - c.send_delay_credit)
        { c with send_delay_credit := if cr > 1000 then 1000 else cr }
    if window_full c1 ∨ ¬has_data then (c1, false)
    else
      let c2 := { c1 with last_update_time := now }
      ((write_raw_packet c2 0 now).1, true)

/-- `connection::check_timeout(current_time)`: a zero `_last_ping_send_time`
is first replaced by `current_time`; then if the timeout elapsed, either the
retry budget is exhausted (return true) or a ping is sent.  Returns
(new state, timed out, ping sent). -/
def check_timeout (c : Conn) (now : Nat) : Conn × Bool × Bool :=
  let c0 := if c.last_ping_send_time = 0 then { c with last_ping_send_time := now } else c
  if now - c0.last_ping_send_time > c.ping_timeout then
    if c.ping_send_count ≥ c.ping_retry_count then (c0, true, false)
    else
      let c1 := { c0 with last_ping_send_time := now,
                          ping_send_count := c.ping_send_count + 1 }
      ((write_raw_packet c1 1 now).1, false, true)
  else (c0, false, false)

/-- The `connection` constructor: the sequence fields start from the random
`_initial_send_seq` (`iss`), receive side at 0, default ping constants, the
rate defaults (2500 B/s, 96 ms period, so the negotiated send period is 96).
`_last_update_time`, `_last_packet_recv_time` and `_last_seq_recvd_at_send`
are left uninitialized by the constructor and are passed in here. -/
def connection_init (iss lut lprt : Nat) (lssras : Nat → Nat) : Conn :=
  { last_seq_recvd := 0
    highest_acked_seq := iss
    last_send_seq := iss
    last_recv_ack_ack := 0
    ack_mask := 0
    last_seq_recvd_at_send := lssras
    ping_send_count := 0
    last_ping_send_time := 0
    ping_timeout := default_ping_timeout
    ping_retry_count := default_ping_retry_count
    has_cipher := false
    last_packet_recv_time := lprt
    last_update_time := lut
    send_delay_credit := 0
    current_packet_send_period := 96
    local_rate_changed := true
    max_recv_bw := 2500
    max_send_bw := 2500
    min_recv_period := 96
    min_send_period := 96 }

/-- The packet layout exactly as claim C5 states it (this definition follows
the claim's words, not the source, for comparison with `write_raw_packet`):
cleartext header, then ack byte count `(last_seq_recvd - last_recv_ack_ack + 7)/8`
clamped to 4 as a ranged uint, the ack-mask words, the payload for data
packets only, and the trailing MAC - nothing else. -/
def claimed_packet_fields (c : Conn) (ptype : Nat) : List Field :=
  let abc := min ((sub32 c.last_seq_recvd c.last_recv_ack_ack + 7) / 8) max_ack_byte_count
  let seq' := if ptype = 0 then (c.last_send_seq + 1) % W32 else c.last_send_seq
  [Field.bits (ptype % 4) 2,
   Field.bits (seq' % 32) 5,
   Field.bits 1 1,
   Field.bits ((seq' >>> 5) % 64) 6,
   Field.bits (c.last_seq_recvd % 1024) 10,
   Field.bits 0 0,
   ranged_field abc 0 max_ack_byte_count]
  ++ ack_word_fields c.ack_mask abc
  ++ (if ptype = 0 then [Field.payload] else [])
  ++ [Field.signature]

/- Helper lemmas -/

theorem sub32_eq_sub (a b : Nat) (h1 : b ≤ a) (h2 : a < W32) : sub32 a b = a - b := by
  simp only [sub32, W32] at *
  omega

theorem sub32_lt (a b : Nat) : sub32 a b < W32 := by
  simp only [sub32, W32]
  omega

theorem sub32_succ (a b : Nat) : sub32 ((a + 1) % W32) b = (sub32 a b + 1) % W32 := by
  simp only [sub32, W32]
  omega

theorem or_shiftRight_distrib (x y k : Nat) : (x ||| y) >>> k = (x >>> k) ||| (y >>> k) := by
  apply Nat.eq_of_testBit_eq
  intro i
  simp [Nat.testBit_shiftRight, Nat.testBit_or]

theorem or_mod_two_pow (x y k : Nat) : (x ||| y) % 2 ^ k = (x % 2 ^ k) ||| (y % 2 ^ k) := by
  apply Nat.eq_of_testBit_eq
  intro i
  simp only [Nat.testBit_mod_two_pow, Nat.testBit_or]
  by_cases h : i < k <;> simp [h]

/-- `x &&& (2^32 - 2^k)` clears the low `k` bits, for `x < 2^32`. -/
theorem and_high_mask (x k : Nat) (hx : x < W32) (hk : k ≤ 32) :
    x &&& (W32 - 2 ^ k) = 2 ^ k * (x / 2 ^ k) := by
  have hmask : W32 - 2 ^ k = (2 ^ (32 - k) - 1) <<< k := by
    rw [Nat.shiftLeft_eq, Nat.sub_mul, one_mul, ← pow_add]
    rw [Nat.sub_add_cancel hk]
    rfl
  have hdiv : 2 ^ k * (x / 2 ^ k) = (x >>> k) <<< k := by
    rw [Nat.shiftRight_eq_div_pow, Nat.shiftLeft_eq, mul_comm]
  rw [hmask, hdiv]
  apply Nat.eq_of_testBit_eq
  intro i
  rw [Nat.testBit_and, Nat.testBit_shiftLeft, Nat.testBit_shiftLeft,
    Nat.testBit_two_pow_sub_one, Nat.testBit_shiftRight]
  by_cases hik : k ≤ i
  · have hki : k + (i - k) = i := by omega
    by_cases hin : i < 32
    · have : i - k < 32 - k := by omega
      simp [hik, hki, this]
    · have hxf : x.testBit i = false := by
        apply Nat.testBit_lt_two_pow
        have h1 : (2 : Nat) ^ 32 ≤ 2 ^ i := Nat.pow_le_pow_right (by omega) (by omega)
        have h2 : x < 2 ^ 32 := by simpa [W32] using hx
        omega
      have : ¬(i - k < 32 - k) := by omega
      simp [hik, hki, hxf, this]
  · simp [hik]

/-- OR of disjoint low and high parts is addition. -/
theorem or_low_add (q k raw : Nat) (h : raw < 2 ^ k) :
    raw ||| 2 ^ k * q = 2 ^ k * q + raw := by
  have hdiv : (raw ||| 2 ^ k * q) / 2 ^ k = q := by
    have h1 : (raw ||| 2 ^ k * q) >>> k = (raw >>> k) ||| ((2 ^ k * q) >>> k) :=
      or_shiftRight_distrib ..
    simp only [Nat.shiftRight_eq_div_pow] at h1
    rw [Nat.div_eq_of_lt h, Nat.mul_div_cancel_left _ (Nat.two_pow_pos k)] at h1
    simpa using h1
  have hmod : (raw ||| 2 ^ k * q) % 2 ^ k = raw := by
    rw [or_mod_two_pow, Nat.mul_mod_right, Nat.mod_eq_of_lt h]
    simp
  have hdm := Nat.div_add_mod (raw ||| 2 ^ k * q) (2 ^ k)
  rw [hdiv, hmod] at hdm
  omega

/-- Value of `recon_seq` in plain arithmetic, below the 2^32 wrap. -/
theorem recon_seq_eq (cur raw : Nat) (h1 : cur + 2048 < W32) (h2 : raw < 2048) :
    recon_seq cur raw =
      (if 2048 * (cur / 2048) + raw < cur then 2048 * (cur / 2048) + raw + 2048
       else 2048 * (cur / 2048) + raw) := by
  have hm : cur &&& sequence_number_mask = 2048 * (cur / 2048) := by
    have := and_high_mask cur 11 (by omega) (by omega)
    norm_num at this
    simpa [sequence_number_mask] using this
  have ho : raw ||| 2048 * (cur / 2048) = 2048 * (cur / 2048) + raw := by
    have := or_low_add (cur / 2048) 11 raw (by norm_num; omega)
    norm_num at this
    exact this
  have hdm := Nat.div_add_mod cur 2048
  have hmod := Nat.mod_lt cur (show 0 < 2048 by omega)
  unfold recon_seq
  rw [hm, ho]
  simp only [sequence_number_window_size]
  split
  · rw [Nat.mod_eq_of_lt (by omega)]
  · rfl

/-- `recon_seq` never moves backwards and stays below 2^32, below the wrap. -/
theorem recon_seq_bounds (cur raw : Nat) (h1 : cur + 2048 < W32) (h2 : raw < 2048) :
    cur ≤ recon_seq cur raw ∧ recon_seq cur raw < W32 := by
  rw [recon_seq_eq cur raw h1 h2]
  have hdm := Nat.div_add_mod cur 2048
  have hmod := Nat.mod_lt cur (show 0 < 2048 by omega)
  split <;> omega

/-- Value of `recon_ack` in plain arithmetic, below the 2^32 wrap. -/
theorem recon_ack_eq (cur raw : Nat) (h1 : cur + 1024 < W32) (h2 : raw < 1024) :
    recon_ack cur raw =
      (if 1024 * (cur / 1024) + raw < cur then 1024 * (cur / 1024) + raw + 1024
       else 1024 * (cur / 1024) + raw) := by
  have hm : cur &&& ack_sequence_number_mask = 1024 * (cur / 1024) := by
    have := and_high_mask cur 10 (by omega) (by omega)
    norm_num at this
    simpa [ack_sequence_number_mask] using this
  have ho : raw ||| 1024 * (cur / 1024) = 1024 * (cur / 1024) + raw := by
    have := or_low_add (cur / 1024) 10 raw (by norm_num; omega)
    norm_num at this
    exact this
  have hdm := Nat.div_add_mod cur 1024
  have hmod := Nat.mod_lt cur (show 0 < 1024 by omega)
  unfold recon_ack
  rw [hm, ho]
  simp only [ack_sequence_number_window_size]
  split
  · rw [Nat.mod_eq_of_lt (by omega)]
  · rfl

/-- `recon_ack` never moves backwards and stays below 2^32, below the wrap. -/
theorem recon_ack_bounds (cur raw : Nat) (h1 : cur + 1024 < W32) (h2 : raw < 1024) :
    cur ≤ recon_ack cur raw ∧ recon_ack cur raw < W32 := by
  rw [recon_ack_eq cur raw h1 h2]
  have hdm := Nat.div_add_mod cur 1024
  have hmod := Nat.mod_lt cur (show 0 < 1024 by omega)
  split <;> omega

/-- A rejected packet takes one of the five early `return false` paths,
leaving the connection untouched and emitting nothing. -/
theorem read_header_reject (c : Conn) (p : Packet) (h : header_ok c p = false) :
    read_packet_header c p = (false, c, []) := by
  simp only [header_ok, Bool.and_eq_false_iff, beq_eq_false_iff_ne,
    decide_eq_false_iff_not, Bool.or_eq_false_iff, Bool.not_eq_false', not_le, not_lt,
    max_packet_window_size, max_ack_byte_count] at h
  unfold read_packet_header
  split
  · rfl
  · split
    · rfl
    · split
      · rfl
      · split
        · rfl
        · split
          · rfl
          · exfalso
            rename_i g1 g2 g3 g4 g5
            simp only [max_packet_window_size] at g2
            simp only [max_ack_byte_count, not_or, not_lt] at g5
            rcases h with ((((h | h) | h) | h) | h) | h
            · exact g1 h
            · omega
            · omega
            · simp [h.1, h.2] at g4
            · omega
            · omega

/-- An accepted packet runs the factored accept body. -/
theorem read_header_accept (c : Conn) (p : Packet) (h : header_ok c p = true) :
    read_packet_header c p = read_packet_header_accept c p := by
  simp only [header_ok, Bool.and_eq_true, beq_iff_eq, decide_eq_true_eq,
    Bool.or_eq_true, Bool.not_eq_true'] at h
  obtain ⟨⟨⟨⟨⟨h1, h2⟩, h3⟩, h4⟩, h5⟩, h6⟩ := h
  simp only [max_packet_window_size] at h2
  simp only [max_ack_byte_count] at h5
  unfold read_packet_header
  rw [if_neg (by omega)]
  rw [if_neg (by simp only [max_packet_window_size]; omega)]
  rw [if_neg (by omega)]
  rw [if_neg (by rcases h4 with h4 | h4 <;> simp [h4])]
  rw [if_neg (by simp only [max_ack_byte_count]; omega)]

/-- First component of the `notify_loop`-shaped fold: the emitted list. -/
theorem foldl_pair_fst {α β : Type} (g : Nat → α) (f : β → Nat → β) :
    ∀ (xs : List Nat) (l : List α) (x : β),
      (xs.foldl (fun acc i => (acc.1 ++ [g i], f acc.2 i)) (l, x)).1 = l ++ xs.map g
  | [], l, x => by simp
  | i :: xs, l, x => by
    simpa using foldl_pair_fst g f xs (l ++ [g i]) (f x i)

/-- Second component of the `notify_loop`-shaped fold: the final ack-ack. -/
theorem foldl_pair_snd {α β : Type} (g : Nat → α) (f : β → Nat → β) :
    ∀ (xs : List Nat) (l : List α) (x : β),
      (xs.foldl (fun acc i => (acc.1 ++ [g i], f acc.2 i)) (l, x)).2 = xs.foldl f x
  | [], l, x => by simp
  | i :: xs, l, x => by
    simpa using foldl_pair_snd g f xs (l ++ [g i]) (f x i)

theorem notify_loop_fst (has : Nat) (lssras ackw : Nat → Nat) (A lraa0 : Nat) :
    (notify_loop has lssras ackw A lraa0).1 =
      (List.range (sub32 A has)).map (notify_step has ackw A) := by
  unfold notify_loop
  exact foldl_pair_fst (notify_step has ackw A)
    (fun x i => if (notify_step has ackw A i).2
      then lssras ((notify_step has ackw A i).1 &&& packet_window_mask) else x)
    (List.range (sub32 A has)) [] lraa0

theorem word_upshift_small (m shift : Nat) (h : shift ≤ 32) :
    word_upshift m shift = (m, shift) := by
  unfold word_upshift
  cases shift with
  | zero => rfl
  | succ n =>
    unfold word_upshift_aux
    rw [if_neg (by omega)]

theorem and_two_pow_ne (x b : Nat) : decide (x &&& (1 <<< b) ≠ 0) = x.testBit b := by
  rw [Nat.one_shiftLeft, Nat.and_two_pow]
  cases h : x.testBit b <;> simp [h]

/- Concrete example states used by witnesses and counterexamples. -/

/-- A quiescent connection with all counters at zero. -/
def baseConn : Conn :=
  { last_seq_recvd := 0, highest_acked_seq := 0, last_send_seq := 0,
    last_recv_ack_ack := 0, ack_mask := 0, last_seq_recvd_at_send := fun _ => 0,
    ping_send_count := 0, last_ping_send_time := 0, ping_timeout := 5000,
    ping_retry_count := 10, has_cipher := false, last_packet_recv_time := 0,
    last_update_time := 0, send_delay_credit := 0, current_packet_send_period := 96,
    local_rate_changed := false, max_recv_bw := 2500, max_send_bw := 2500,
    min_recv_period := 96, min_send_period := 96 }

/-- A well-formed all-zero packet. -/
def basePacket : Packet :=
  { ptype := 0, seq_low := 0, flag := true, seq_hi := 0, hack := 0, pad := 0,
    mac_ok := true, abc := 0, ack_words := fun _ => 0 }

/- Claim theorems -/

/-- Claim C9, counterexample: the claim states that a fresh connection has
`ping_timeout` 5000 ms and `ping_retry_count` 5; the constructor sets
`_ping_retry_count = default_ping_retry_count = 10`, so the conjunction is
false for the concretely constructed connection. -/
theorem c9_counterexample :
    ¬((connection_init 0 0 0 (fun _ => 0)).ping_timeout = 5000 ∧
      (connection_init 0 0 0 (fun _ => 0)).ping_retry_count = 5) := by
  decide

/-- Claim C9, amended: a freshly constructed connection has `ping_timeout`
equal to 5000 milliseconds and `ping_retry_count` equal to 10. -/
theorem c9_fresh_ping_defaults (iss lut lprt : Nat) (lssras : Nat → Nat) :
    (connection_init iss lut lprt lssras).ping_timeout = 5000 ∧
    (connection_init iss lut lprt lssras).ping_retry_count = 10 :=
  ⟨rfl, rfl⟩

/-- Claim C4: whenever `read_packet_header` rejects a packet (any of the
checked conditions failing), it returns false, every connection field keeps
its prior value, no notification is emitted, and `read_raw_packet` neither
stamps the receive time nor decodes a payload. -/
theorem c4_reject_no_effect (c : Conn) (p : Packet) (now : Nat)
    (h : header_ok c p = false) :
    read_packet_header c p = (false, c, []) ∧
    read_raw_packet c false p now = (c, [], false) := by
  have h1 := read_header_reject c p h
  refine ⟨h1, ?_⟩
  simp [read_raw_packet, h1]

/-- Witness for C4 at a packet with an invalid packet type (3). -/
theorem c4_reject_no_effect_witness :
    header_ok baseConn { basePacket with ptype := 3 } = false ∧
    (read_packet_header baseConn { basePacket with ptype := 3 } =
        (false, baseConn, []) ∧
      read_raw_packet baseConn false { basePacket with ptype := 3 } 5 =
        (baseConn, [], false)) :=
  ⟨by decide, c4_reject_no_effect baseConn { basePacket with ptype := 3 } 5 (by decide)⟩

/-- Claim C6, evaluation at the failing input: a packet whose data-packet
flag bit is clear but which passes every other check is not dropped - the
source only `assert`s the flag - so `read_packet_header` processes it,
returns true and advances `last_seq_recvd`, contradicting the claimed
silent drop with unchanged state. -/
theorem c6_flag_only_asserted :
    ({ basePacket with seq_low := 1, flag := false } : Packet).flag = false ∧
    (read_packet_header baseConn { basePacket with seq_low := 1, flag := false }).1 = true ∧
    (read_packet_header baseConn
        { basePacket with seq_low := 1, flag := false }).2.1.last_seq_recvd ≠
      baseConn.last_seq_recvd := by
  decide

/-- Claim C10: `read_packet_header` returns true iff the packet passes all
checks, is a data packet, and its reconstructed sequence differs from the
previous `last_seq_recvd`; `read_raw_packet` decodes the payload exactly
when that return value is true and the loss draw did not drop the packet. -/
theorem c10_payload_gate (c : Conn) (p : Packet) (drop : Bool) (now : Nat) :
    ((read_packet_header c p).1 = true ↔
      (header_ok c p = true ∧ p.ptype = 0 ∧
        recon_seq c.last_seq_recvd (raw_seq p) ≠ c.last_seq_recvd)) ∧
    ((read_raw_packet c drop p now).2.2 = true ↔
      (drop = false ∧ (read_packet_header c p).1 = true)) := by
  constructor
  · by_cases h : header_ok c p = true
    · rw [read_header_accept c p h]
      simp only [read_packet_header_accept, Bool.and_eq_true, decide_eq_true_eq]
      constructor
      · rintro ⟨hne, hd⟩
        exact ⟨h, hd, fun q => hne q.symm⟩
      · rintro ⟨_, hd, hne⟩
        exact ⟨fun q => hne q.symm, hd⟩
    · rw [read_header_reject c p (by simpa using h)]
      simp [h]
  · unfold read_raw_packet
    cases drop
    · by_cases hr : (read_packet_header c p).1 <;> simp [hr]
    · simp

/-- Claim C3, counterexample: the claim says the lowest ack-mask bit becomes
1 iff the packet is a data packet "and 0 otherwise", while also calling
shift-0 receipt idempotent.  For a resent ping carrying the current
sequence (shift 0) on a mask whose low bit is set, the code leaves the low
bit at 1 although the packet is not a data packet: the shifted-in bit is
OR-ed, not assigned. -/
theorem c3_counterexample :
    header_ok { baseConn with last_seq_recvd := 10, ack_mask := 1 }
        { basePacket with ptype := 1, seq_low := 10 } = true ∧
    recon_seq ({ baseConn with last_seq_recvd := 10, ack_mask := 1 } : Conn).last_seq_recvd
        (raw_seq { basePacket with ptype := 1, seq_low := 10 }) = 10 ∧
    ({ basePacket with ptype := 1, seq_low := 10 } : Packet).ptype ≠ 0 ∧
    (read_packet_header { baseConn with last_seq_recvd := 10, ack_mask := 1 }
        { basePacket with ptype := 1, seq_low := 10 }).2.1.ack_mask.testBit 0 = true := by
  decide

/-- Claim C3, amended: on acceptance the ack mask becomes the old mask
shifted left by `shift = pk_seq - last_seq_recvd` bits (truncated to 32
bits) OR-ed with 1 iff the packet is a data packet (so for shift ≥ 1 the
low bit is 1 iff data; at shift = 0 the old low bit is retained); in
particular a resent ping or ack packet with the same sequence (shift 0)
leaves the mask unchanged. -/
theorem c3_ack_mask_shift (c : Conn) (p : Packet)
    (h : header_ok c p = true) (hm : c.ack_mask < W32) :
    (read_packet_header c p).2.1.ack_mask =
      ((c.ack_mask <<<
          sub32 (recon_seq c.last_seq_recvd (raw_seq p)) c.last_seq_recvd) % W32) |||
        (if p.ptype = 0 then 1 else 0) ∧
    (p.ptype ≠ 0 →
      sub32 (recon_seq c.last_seq_recvd (raw_seq p)) c.last_seq_recvd = 0 →
      (read_packet_header c p).2.1.ack_mask = c.ack_mask) := by
  have hb : sub32 (recon_seq c.last_seq_recvd (raw_seq p)) c.last_seq_recvd ≤ 31 := by
    simp only [header_ok, Bool.and_eq_true, decide_eq_true_eq, max_packet_window_size] at h
    exact h.1.1.1.1.2
  rw [read_header_accept c p h]
  simp only [read_packet_header_accept]
  rw [word_upshift_small _ _ (by omega)]
  refine ⟨rfl, fun hp h0 => ?_⟩
  rw [h0]
  simp only [Nat.shiftLeft_zero, Nat.mod_eq_of_lt hm, if_neg hp, Nat.or_zero]

/-- Witness for C3 at a data packet advancing the sequence by 2. -/
theorem c3_ack_mask_shift_witness :
    (read_packet_header { baseConn with last_seq_recvd := 20, ack_mask := 3 }
        { basePacket with seq_low := 22 }).2.1.ack_mask =
      ((({ baseConn with last_seq_recvd := 20, ack_mask := 3 } : Conn).ack_mask <<<
          sub32 (recon_seq 20 (raw_seq { basePacket with seq_low := 22 })) 20) % W32) |||
        (if ({ basePacket with seq_low := 22 } : Packet).ptype = 0 then 1 else 0) :=
  (c3_ack_mask_shift { baseConn with last_seq_recvd := 20, ack_mask := 3 }
    { basePacket with seq_low := 22 } (by decide) (by decide)).1

/-- Claim C2, counterexample: the claim asserts `last_seq_recvd` is
monotonically non-decreasing across every accepted packet; at the 2^32
boundary the uint32 wrap-forward addition overflows and the accepted
reconstructed sequence is numerically smaller.  With
`last_seq_recvd = 2^32 - 1` (reachable, since the initial receive sequence
is the peer's random 32-bit initial send sequence) a truncated sequence 0
reconstructs to 0, is accepted, and `last_seq_recvd` decreases. -/
theorem c2_counterexample :
    header_ok { baseConn with last_seq_recvd := 4294967295, last_recv_ack_ack := 4294967295 }
        basePacket = true ∧
    (read_packet_header
        { baseConn with last_seq_recvd := 4294967295, last_recv_ack_ack := 4294967295 }
        basePacket).2.1.last_seq_recvd <
      ({ baseConn with last_seq_recvd := 4294967295, last_recv_ack_ack := 4294967295 } : Conn).last_seq_recvd := by
  decide

/-- Claim C2, amended: the sequence is reconstructed by OR-ing in the high
bits of `last_seq_recvd` and adding 2^11 when the result is below it, the
packet is dropped (returns false, state untouched, nothing emitted) when
the reconstruction exceeds `last_seq_recvd + 31`; identically the 10-bit
highest-ack against `highest_acked_seq`, dropped when strictly greater
than `last_send_seq`; and across every accepted packet `last_seq_recvd`
and `highest_acked_seq` are non-decreasing, provided the reconstruction
does not wrap past 2^32. -/
theorem c2_window_monotone (c : Conn) (p : Packet)
    (h1 : c.last_seq_recvd + 2048 < W32) (h2 : raw_seq p < 2048)
    (h3 : c.highest_acked_seq + 1024 < W32) (h4 : p.hack < 1024) :
    (recon_seq c.last_seq_recvd (raw_seq p) >
        c.last_seq_recvd + (max_packet_window_size - 1) →
      read_packet_header c p = (false, c, [])) ∧
    (recon_ack c.highest_acked_seq p.hack > c.last_send_seq →
      read_packet_header c p = (false, c, [])) ∧
    (header_ok c p = true →
      c.last_seq_recvd ≤ (read_packet_header c p).2.1.last_seq_recvd ∧
      c.highest_acked_seq ≤ (read_packet_header c p).2.1.highest_acked_seq) := by
  have hsb := recon_seq_bounds c.last_seq_recvd (raw_seq p) h1 h2
  have hab := recon_ack_bounds c.highest_acked_seq p.hack h3 h4
  have hsub : sub32 (recon_seq c.last_seq_recvd (raw_seq p)) c.last_seq_recvd =
      recon_seq c.last_seq_recvd (raw_seq p) - c.last_seq_recvd :=
    sub32_eq_sub _ _ hsb.1 hsb.2
  refine ⟨?_, ?_, ?_⟩
  · intro hout
    apply read_header_reject
    simp only [header_ok, max_packet_window_size] at *
    have : ¬(sub32 (recon_seq c.last_seq_recvd (raw_seq p)) c.last_seq_recvd ≤ 32 - 1) := by
      omega
    simp [this]
  · intro hout
    apply read_header_reject
    simp only [header_ok]
    have : ¬(recon_ack c.highest_acked_seq p.hack ≤ c.last_send_seq) := by omega
    simp [this]
  · intro h
    rw [read_header_accept c p h]
    simp only [read_packet_header_accept]
    exact ⟨hsb.1, hab.1⟩

/-- Witness for C2 at an in-window data packet (sequence 5 on a zeroed
connection), exercising the monotonicity conjunct. -/
theorem c2_window_monotone_witness :
    baseConn.last_seq_recvd ≤
      (read_packet_header baseConn { basePacket with seq_low := 5 }).2.1.last_seq_recvd ∧
    baseConn.highest_acked_seq ≤
      (read_packet_header baseConn { basePacket with seq_low := 5 }).2.1.highest_acked_seq :=
  (c2_window_monotone baseConn { basePacket with seq_low := 5 }
    (by decide) (by decide) (by decide) (by decide)).2.2 (by decide)

/-- Claim C7, counterexample: the claim says the send path refuses a full
window "without side effects"; with `force = false` the rate gate updates
`_send_delay_credit` before the window check, so refusing a full window can
still change the credit. -/
theorem c7_counterexample :
    window_full { baseConn with last_send_seq := 30 } = true ∧
    (check_packet_send { baseConn with last_send_seq := 30 } false 100 true).2 = false ∧
    (check_packet_send { baseConn with last_send_seq := 30 } false 100 true).1.send_delay_credit ≠
      ({ baseConn with last_send_seq := 30 } : Conn).send_delay_credit := by
  decide

/-- Claim C7, amended: `window_full()` holds iff
`last_send_seq - highest_acked_seq ≥ 30`; while it holds the send path
writes no data packet and leaves all sequence-window state unchanged
(though with `force = false` the send-delay pacing credit may still be
updated before the refusal); and after every successful data-packet send
`last_send_seq - highest_acked_seq ≤ 30`. -/
theorem c7_window_invariant (c : Conn) (force : Bool) (now : Nat) (has_data : Bool) :
    (window_full c = true ↔
      sub32 c.last_send_seq c.highest_acked_seq ≥ max_packet_window_size - 2) ∧
    (window_full c = true →
      (check_packet_send c force now has_data).2 = false ∧
      (check_packet_send c force now has_data).1.last_send_seq = c.last_send_seq ∧
      (check_packet_send c force now has_data).1.highest_acked_seq = c.highest_acked_seq ∧
      (check_packet_send c force now has_data).1.last_seq_recvd = c.last_seq_recvd ∧
      (check_packet_send c force now has_data).1.last_recv_ack_ack = c.last_recv_ack_ack ∧
      (check_packet_send c force now has_data).1.ack_mask = c.ack_mask ∧
      (check_packet_send c force now has_data).1.last_seq_recvd_at_send =
        c.last_seq_recvd_at_send) ∧
    ((check_packet_send c force now has_data).2 = true →
      sub32 (check_packet_send c force now has_data).1.last_send_seq
          (check_packet_send c force now has_data).1.highest_acked_seq ≤
        max_packet_window_size - 2) := by
  have hwc : ∀ x : Nat, window_full { c with send_delay_credit := x } = window_full c :=
    fun _ => rfl
  refine ⟨by simp [window_full], ?_, ?_⟩
  · intro hw
    simp only [check_packet_send]
    by_cases hf : force = true
    · rw [if_neg (by simp [hf]), if_pos hf,
        if_pos (Or.inl (show window_full c = true from hw))]
      simp
    · have hf' : force = false := by simpa using hf
      by_cases hg : now - c.last_update_time + c.send_delay_credit <
          c.current_packet_send_period
      · rw [if_pos ⟨by simp [hf'], hg⟩]
        simp
      · rw [if_neg (by rintro ⟨h1, h2⟩; exact hg h2), if_neg hf,
          if_pos (Or.inl (show window_full _ = true from (hwc _).trans hw))]
        simp
  · intro hs
    simp only [check_packet_send] at hs ⊢
    by_cases hf : force = true
    · rw [if_neg (by simp [hf]), if_pos hf] at hs ⊢
      by_cases hwd : (window_full c = true ∨ ¬has_data = true)
      · rw [if_pos hwd] at hs
        simp at hs
      · rw [if_neg hwd] at hs ⊢
        have hwf : ¬ window_full c = true := fun q => hwd (Or.inl q)
        simp only [window_full, decide_eq_true_eq, not_le, max_packet_window_size] at hwf
        have hss := sub32_succ c.last_send_seq c.highest_acked_seq
        have hlt := sub32_lt c.last_send_seq c.highest_acked_seq
        simp only [write_raw_packet, write_packet_header, write_packet_rate_info,
          if_pos rfl, max_packet_window_size]
        show sub32 ((c.last_send_seq + 1) % W32) c.highest_acked_seq ≤ 32 - 2
        rw [hss, Nat.mod_eq_of_lt (by simp only [W32] at *; omega)]
        omega
    · have hf' : force = false := by simpa using hf
      by_cases hg : now - c.last_update_time + c.send_delay_credit <
          c.current_packet_send_period
      · rw [if_pos ⟨by simp [hf'], hg⟩] at hs
        simp at hs
      · rw [if_neg (by rintro ⟨h1, h2⟩; exact hg h2), if_neg hf] at hs ⊢
        by_cases hwd : (window_full ({ c with send_delay_credit :=
            if now - (c.last_update_time + c.current_packet_send_period -
                c.send_delay_credit) > 1000 then 1000
            else now - (c.last_update_time + c.current_packet_send_period -
                c.send_delay_credit) } : Conn) = true ∨ ¬has_data = true)
        · rw [if_pos hwd] at hs
          simp at hs
        · rw [if_neg hwd] at hs ⊢
          have hwf : ¬ window_full c = true := fun q => hwd (Or.inl ((hwc _).trans q))
          simp only [window_full, decide_eq_true_eq, not_le, max_packet_window_size] at hwf
          have hss := sub32_succ c.last_send_seq c.highest_acked_seq
          have hlt := sub32_lt c.last_send_seq c.highest_acked_seq
          simp only [write_raw_packet, write_packet_header, write_packet_rate_info,
            if_pos rfl, max_packet_window_size]
          show sub32 ((c.last_send_seq + 1) % W32) c.highest_acked_seq ≤ 32 - 2
          rw [hss, Nat.mod_eq_of_lt (by simp only [W32] at *; omega)]
          omega

/-- Witness for C7: a full window (30 outstanding) refuses the send. -/
theorem c7_window_invariant_witness :
    (check_packet_send { baseConn with last_send_seq := 30 } true 0 true).2 = false :=
  ((c7_window_invariant { baseConn with last_send_seq := 30 } true 0 true).2.1 (by decide)).1

/-- Claim C8, counterexample: the claim says `check_timeout(now)` returns
true iff `now - last_ping_send_time > ping_timeout` and the retry budget
is exhausted, and otherwise "does nothing" when not pinging.  When
`_last_ping_send_time` is zero the code first overwrites it with `now`
(a state change) and then compares against the fresh stamp, returning
false even though the claimed condition holds. -/
theorem c8_counterexample :
    (6000 - ({ baseConn with ping_send_count := 10 } : Conn).last_ping_send_time >
        ({ baseConn with ping_send_count := 10 } : Conn).ping_timeout ∧
      ({ baseConn with ping_send_count := 10 } : Conn).ping_send_count ≥
        ({ baseConn with ping_send_count := 10 } : Conn).ping_retry_count) ∧
    (check_timeout { baseConn with ping_send_count := 10 } 6000).2.1 = false ∧
    (check_timeout { baseConn with ping_send_count := 10 } 6000).1.last_ping_send_time ≠
      ({ baseConn with ping_send_count := 10 } : Conn).last_ping_send_time := by
  decide

/-- Claim C8, amended: when `last_ping_send_time` is nonzero,
`check_timeout(now)` returns true iff `now - last_ping_send_time >
ping_timeout` and `ping_send_count ≥ ping_retry_count`; when it is zero it
is first stamped to `now` and the call returns false; when the timeout has
elapsed with retry budget remaining it increments `ping_send_count`, sets
`last_ping_send_time = now` and emits one ping; when the timeout has not
elapsed (and the stamp was nonzero) it does nothing and returns false; and
every accepted `read_packet_header` zeroes both `ping_send_count` and
`last_ping_send_time` (so a full `ping_timeout` must elapse after the next
`check_timeout` call before the next ping). -/
theorem c8_timeout_driver (c : Conn) (now : Nat) (p : Packet) :
    (c.last_ping_send_time ≠ 0 →
      ((check_timeout c now).2.1 = true ↔
        (now - c.last_ping_send_time > c.ping_timeout ∧
          c.ping_send_count ≥ c.ping_retry_count))) ∧
    (c.last_ping_send_time = 0 →
      check_timeout c now = ({ c with last_ping_send_time := now }, false, false)) ∧
    (c.last_ping_send_time ≠ 0 → now - c.last_ping_send_time > c.ping_timeout →
      c.ping_send_count < c.ping_retry_count →
      check_timeout c now =
        ({ c with last_ping_send_time := now, ping_send_count := c.ping_send_count + 1 },
          false, true)) ∧
    (c.last_ping_send_time ≠ 0 → ¬(now - c.last_ping_send_time > c.ping_timeout) →
      check_timeout c now = (c, false, false)) ∧
    (header_ok c p = true →
      (read_packet_header c p).2.1.ping_send_count = 0 ∧
      (read_packet_header c p).2.1.last_ping_send_time = 0) := by
  refine ⟨?_, ?_, ?_, ?_, ?_⟩
  · intro hz
    simp only [check_timeout, if_neg hz]
    by_cases ht : now - c.last_ping_send_time > c.ping_timeout
    · rw [if_pos ht]
      by_cases hr : c.ping_send_count ≥ c.ping_retry_count
      · simp [hr, ht]
      · rw [if_neg hr]
        simp [hr, ht]
    · simp [if_neg ht, ht]
  · intro hz
    simp only [check_timeout, if_pos hz]
    rw [if_neg (by simp)]
  · intro hz ht hr
    simp only [check_timeout, if_neg hz, if_pos ht, if_neg (not_le.mpr hr)]
    simp only [write_raw_packet, write_packet_header, write_packet_rate_info]
    rw [if_neg (by omega)]
    rfl
  · intro hz ht
    simp only [check_timeout, if_neg hz, if_neg ht]
  · intro h
    rw [read_header_accept c p h]
    exact ⟨rfl, rfl⟩

/-- Witness for C8: a connection mid-countdown (stamp 1000, 3 pings sent)
polled at 7000 ms sends its next ping. -/
theorem c8_timeout_driver_witness :
    check_timeout { baseConn with last_ping_send_time := 1000, ping_send_count := 3 } 7000 =
      ({ baseConn with last_ping_send_time := 7000, ping_send_count := 4 }, false, true) := by
  have h := (c8_timeout_driver
    { baseConn with last_ping_send_time := 1000, ping_send_count := 3 } 7000
    basePacket).2.2.1 (by decide) (by decide) (by decide)
  exact h

/-- Claim C5, counterexample: the claimed layout has nothing between the
ack-mask words, the payload and the MAC, but `write_packet_header` also
writes an 8-bit send-delay field after the ack words, and for data packets
`write_raw_packet` writes the rate-info block before the payload; at a
concrete connection the written field list differs from the claimed one. -/
theorem c5_counterexample :
    (write_raw_packet { baseConn with has_cipher := true } 0 7).2 ≠
      claimed_packet_fields { baseConn with has_cipher := true } 0 := by
  decide

/-- Claim C5, amended: every written packet is the cleartext header (2-bit
type, low 5 sequence bits, the always-1 flag bit, 6 more sequence bits, the
10-bit `last_seq_recvd`, 0 pad bits), then the encrypted region holding in
order: `ack_byte_count = (last_seq_recvd - last_recv_ack_ack + 7)/8`
(clamped to 4; the code has no clamp, but under the maintained invariant
`last_seq_recvd - last_recv_ack_ack ≤ 32` the clamp never bites) as a
ranged uint in [0,4]; the ack-mask words (final word
`(ack_byte_count - 4i)*8` bits); an 8-bit send-delay field; for data
packets the rate-info block and then the payload; and, when a cipher is
installed, the trailing 5-byte MAC. -/
theorem c5_packet_layout (c : Conn) (ptype now : Nat)
    (hinv : sub32 c.last_seq_recvd c.last_recv_ack_ack ≤ max_packet_window_size) :
    (write_raw_packet c ptype now).2 =
      [Field.bits (ptype % 4) 2,
       Field.bits ((if ptype = 0 then (c.last_send_seq + 1) % W32 else c.last_send_seq) % 32) 5,
       Field.bits 1 1,
       Field.bits (((if ptype = 0 then (c.last_send_seq + 1) % W32 else c.last_send_seq) >>> 5) % 64) 6,
       Field.bits (c.last_seq_recvd % 1024) 10,
       Field.bits 0 0,
       ranged_field (min ((sub32 c.last_seq_recvd c.last_recv_ack_ack + 7) / 8)
         max_ack_byte_count) 0 max_ack_byte_count]
      ++ ack_word_fields c.ack_mask
          (min ((sub32 c.last_seq_recvd c.last_recv_ack_ack + 7) / 8) max_ack_byte_count)
      ++ [Field.bits (((if now - c.last_packet_recv_time > 2047 then 2047
            else now - c.last_packet_recv_time) >>> 3) % 256) 8]
      ++ (if ptype = 0 then
            (if c.local_rate_changed then
              [Field.bits 1 1,
               ranged_field c.max_recv_bw 0 65535,
               ranged_field c.max_send_bw 0 65535,
               ranged_field c.min_recv_period 1 2047,
               ranged_field c.min_send_period 1 2047]
             else [Field.bits 0 1]) ++ [Field.payload]
          else [])
      ++ (if c.has_cipher then [Field.signature] else []) := by
  have hle : sub32 c.last_seq_recvd c.last_recv_ack_ack ≤ 32 := by
    simpa [max_packet_window_size] using hinv
  have habc : ((sub32 c.last_seq_recvd c.last_recv_ack_ack + 7) % W32) >>> 3 =
      min ((sub32 c.last_seq_recvd c.last_recv_ack_ack + 7) / 8) max_ack_byte_count := by
    rw [Nat.shiftRight_eq_div_pow, Nat.mod_eq_of_lt (by simp only [W32]; omega)]
    simp only [max_ack_byte_count]
    norm_num
    omega
  simp only [write_raw_packet, write_packet_header, write_packet_rate_info, habc]
  by_cases hp : ptype = 0
  · simp only [if_pos hp]
    by_cases hrc : c.local_rate_changed = true <;> by_cases hc : c.has_cipher = true <;>
      simp [hp, hrc, hc, List.append_assoc]
  · simp only [if_neg hp]
    by_cases hc : c.has_cipher = true <;> simp [hp, hc, List.append_assoc]

/-- Witness for C5: the concrete field trace of a ping packet written at
9 ms on a fresh enciphered connection. -/
theorem c5_packet_layout_witness :
    (write_raw_packet { baseConn with has_cipher := true } 1 9).2 =
      [Field.bits 1 2, Field.bits 0 5, Field.bits 1 1, Field.bits 0 6, Field.bits 0 10,
       Field.bits 0 0, Field.bits 0 3, Field.bits 1 8, Field.signature] := by
  rw [c5_packet_layout { baseConn with has_cipher := true } 1 9 (by decide)]
  decide

/-- Claim C1: for every accepted packet with old `highest_acked_seq` H and
reconstructed peer highest-ack A (not wrapping past 2^32), the notify loop
emits exactly one notification per sequence s in (H, A], in strictly
increasing order of s, with delivered = true iff bit `(A - s) mod 32` of
word `(A - s) / 32` of the packet's ack bitmap is set; after the loop, if
`pk_seq - last_recv_ack_ack > 32` then `last_recv_ack_ack` becomes
`pk_seq - 32`; and finally `highest_acked_seq = A` and `last_seq_recvd`
is the reconstructed packet sequence. -/
theorem c1_notify_dispatch (c : Conn) (p : Packet)
    (h : header_ok c p = true)
    (hw : c.highest_acked_seq + 1024 < W32) (hr : p.hack < 1024) :
    (read_packet_header c p).2.2 =
      (List.range (recon_ack c.highest_acked_seq p.hack - c.highest_acked_seq)).map
        (fun i =>
          (c.highest_acked_seq + 1 + i,
           (p.ack_words
              ((recon_ack c.highest_acked_seq p.hack - (c.highest_acked_seq + 1 + i)) / 32)).testBit
             ((recon_ack c.highest_acked_seq p.hack - (c.highest_acked_seq + 1 + i)) % 32))) ∧
    List.Pairwise (fun a b => a < b) ((read_packet_header c p).2.2.map Prod.fst) ∧
    (∀ s : Nat, s ∈ (read_packet_header c p).2.2.map Prod.fst ↔
      (c.highest_acked_seq < s ∧ s ≤ recon_ack c.highest_acked_seq p.hack)) ∧
    (sub32 (recon_seq c.last_seq_recvd (raw_seq p))
        (notify_loop c.highest_acked_seq c.last_seq_recvd_at_send p.ack_words
          (recon_ack c.highest_acked_seq p.hack) c.last_recv_ack_ack).2 >
        max_packet_window_size →
      (read_packet_header c p).2.1.last_recv_ack_ack =
        sub32 (recon_seq c.last_seq_recvd (raw_seq p)) max_packet_window_size) ∧
    (sub32 (recon_seq c.last_seq_recvd (raw_seq p))
        (notify_loop c.highest_acked_seq c.last_seq_recvd_at_send p.ack_words
          (recon_ack c.highest_acked_seq p.hack) c.last_recv_ack_ack).2 ≤
        max_packet_window_size →
      (read_packet_header c p).2.1.last_recv_ack_ack =
        (notify_loop c.highest_acked_seq c.last_seq_recvd_at_send p.ack_words
          (recon_ack c.highest_acked_seq p.hack) c.last_recv_ack_ack).2) ∧
    (read_packet_header c p).2.1.highest_acked_seq =
      recon_ack c.highest_acked_seq p.hack ∧
    (read_packet_header c p).2.1.last_seq_recvd =
      recon_seq c.last_seq_recvd (raw_seq p) := by
  have hab := recon_ack_bounds c.highest_acked_seq p.hack hw hr
  have hn : sub32 (recon_ack c.highest_acked_seq p.hack) c.highest_acked_seq =
      recon_ack c.highest_acked_seq p.hack - c.highest_acked_seq :=
    sub32_eq_sub _ _ hab.1 hab.2
  rw [read_header_accept c p h]
  simp only [read_packet_header_accept]
  have hlist : (notify_loop c.highest_acked_seq c.last_seq_recvd_at_send p.ack_words
      (recon_ack c.highest_acked_seq p.hack) c.last_recv_ack_ack).1 =
      (List.range (recon_ack c.highest_acked_seq p.hack - c.highest_acked_seq)).map
        (fun i =>
          (c.highest_acked_seq + 1 + i,
           (p.ack_words
              ((recon_ack c.highest_acked_seq p.hack - (c.highest_acked_seq + 1 + i)) / 32)).testBit
             ((recon_ack c.highest_acked_seq p.hack - (c.highest_acked_seq + 1 + i)) % 32))) := by
    rw [notify_loop_fst, hn]
    apply List.map_congr_left
    intro i hi
    simp only [List.mem_range] at hi
    simp only [notify_step]
    have hidx : (c.highest_acked_seq + i + 1) % W32 = c.highest_acked_seq + 1 + i := by
      rw [Nat.mod_eq_of_lt (by omega)]
      omega
    rw [hidx]
    have hd : sub32 (recon_ack c.highest_acked_seq p.hack) (c.highest_acked_seq + 1 + i) =
        recon_ack c.highest_acked_seq p.hack - (c.highest_acked_seq + 1 + i) :=
      sub32_eq_sub _ _ (by omega) hab.2
    rw [hd, show (31 : Nat) = 2 ^ 5 - 1 from rfl, Nat.and_pow_two_sub_one_eq_mod,
      Nat.shiftRight_eq_div_pow, and_two_pow_ne]
  refine ⟨hlist, ?_, ?_, ?_, ?_, ?_, ?_⟩
  · rw [hlist, List.map_map]
    have hcomp : (Prod.fst ∘ fun i =>
        ((c.highest_acked_seq + 1 + i : Nat),
         (p.ack_words
            ((recon_ack c.highest_acked_seq p.hack - (c.highest_acked_seq + 1 + i)) / 32)).testBit
           ((recon_ack c.highest_acked_seq p.hack - (c.highest_acked_seq + 1 + i)) % 32))) =
        fun i => c.highest_acked_seq + 1 + i := rfl
    rw [hcomp]
    exact (List.pairwise_lt_range _).map _ (fun a b hab2 => by omega)
  · intro s
    rw [hlist, List.map_map]
    simp only [List.mem_map, List.mem_range, Function.comp]
    constructor
    · rintro ⟨i, hi, rfl⟩
      omega
    · rintro ⟨h1, h2⟩
      exact ⟨s - c.highest_acked_seq - 1, by omega, by omega⟩
  · intro hgt
    simp only [if_pos hgt]
  · intro hle
    simp only [if_neg (not_lt.mpr hle)]
  · trivial
  · trivial

/-- The connection of spec boundary scenario B: 101..105 outstanding. -/
def c1wConn : Conn := { baseConn with last_seq_recvd := 40, highest_acked_seq := 100, last_send_seq := 105 }

/-- The packet of spec boundary scenario B: highest-ack 105, bitmap 0b101. -/
def c1wPacket : Packet := { basePacket with ptype := 1, seq_low := 41, hack := 105, abc := 1, ack_words := fun i => if i = 0 then 5 else 0 }

/-- Witness for C1: spec boundary scenario B - data packets 101..105
outstanding, the peer reports highest-ack 105 with bitmap bits 0 and 2 set,
producing notifications (101..105) with delivered pattern f,f,t,f,t. -/
theorem c1_notify_dispatch_witness :
    (read_packet_header c1wConn c1wPacket).2.2 =
      [(101, false), (102, false), (103, true), (104, false), (105, true)] := by
  rw [(c1_notify_dispatch c1wConn c1wPacket (by decide) (by decide) (by decide)).1]
  decide

end TorqueSockets
